import Mathlib

/-!
Verification of the OneQ print-shop ranking engine
(`prints/services/oneqscore.py`, money parser shared with
`prints/services/ai.py`).

The Python source is shallowly embedded below.  Python floats are modelled
as exact rationals (`ℚ`), Python ints as `ℤ`/`ℕ`, Python strings as `String`
(lists of characters), Python `dict`s as insertion-ordered association
lists, and Python's builtin banker's rounding as `pyRound`.  JSON
configuration blobs (`temp_step2_data`) are modelled as structures of
optional override fields, mirroring `{**defaults, **overrides}` merging.
Since a JSON field may hold a non-numeric value at runtime, the
`base_hours` lead-time field is given the dynamically-typed model `JVal`
(number or string); `float(...)` applied to it can fail, which makes the
ETA estimator and the ranking entry point `Except`-valued, exactly like
the exception behaviour of the source (the scoring loop of
`score_and_rank` contains no `try/except`).
-/

/- Batteries marks the arithmetic of `Rat` `@[irreducible]`, which blocks
`decide`-style evaluation of the embedded scoring pipeline on concrete
inputs; restore default reducibility inside this file. -/
attribute [local semireducible] Rat.mul Rat.inv Rat.sub Rat.add Rat.ofScientific

set_option maxRecDepth 40000

/-- Python's builtin `round` to an integer: round half to even. -/
def pyRound (x : ℚ) : ℤ :=
  let f := x.floor
  let frac := x - (f : ℚ)
  if frac < 1/2 then f
  else if 1/2 < frac then f + 1
  else if f % 2 = 0 then f else f + 1

/-- Python's `round(x, 1)`: round to one decimal digit, half to even. -/
def round1 (x : ℚ) : ℚ := (pyRound (10 * x) : ℚ) / 10

/-- The whitespace characters stripped by Python's `str.strip()`
(ASCII portion). -/
def isPyWs (c : Char) : Bool :=
  c = ' ' || c = '\t' || c = '\n' || c = '\x0d' || c = '\x0b' || c = '\x0c'

/-- Python `str.strip()` on a character list. -/
def pytrim (l : List Char) : List Char :=
  ((l.dropWhile isPyWs).reverse.dropWhile isPyWs).reverse

/-- Python's substring test `needle in hay` on character lists. -/
def containsTok (hay nee : List Char) : Bool :=
  match hay with
  | [] => nee.isEmpty
  | _ :: t => nee.isPrefixOf hay || containsTok t nee

/-- Python `needle in hay` on strings. -/
def strContainsPy (hay nee : String) : Bool := containsTok hay.data nee.data

/-- Value of a decimal digit string (most significant digit first). -/
def natOfDigits (l : List Char) : ℕ := l.foldl (fun a c => 10 * a + (c.toNat - 48)) 0

/-- Charwise ASCII lowercasing (Python `str.lower`; reduction-friendly,
unlike byte-position-based `String.toLower`). -/
def lowerStr (s : String) : String := String.mk (s.data.map Char.toLower)

/-- Charwise ASCII uppercasing (Python `str.upper`). -/
def upperStr (s : String) : String := String.mk (s.data.map Char.toUpper)

/-- Python truthiness of an optional string slot value. -/
def pyTruthy : Option String → Bool
  | none => false
  | some s => s ≠ ""

/-- Python `a or b` for an optional string with a string fallback. -/
def orStr (a : Option String) (b : String) : String :=
  match a with
  | none => b
  | some s => if s = "" then b else s

/-- `_to_int` from `oneqscore.py`: keep the digits of the string form,
else the default. -/
def toIntPy (v : Option String) (dflt : ℤ) : ℤ :=
  match v with
  | none => dflt
  | some s =>
    let ds := s.data.filter Char.isDigit
    if ds = [] then dflt else (natOfDigits ds : ℤ)

/-- Left-to-right removal of every occurrence of the two-character token
`a b`, as Python's `str.replace(tok, "")`. -/
def removePair (a b : Char) : List Char → List Char
  | x :: y :: rest =>
      if x = a ∧ y = b then removePair a b rest
      else x :: removePair a b (y :: rest)
  | l => l

/-- The regex `^(\d+)suf$`: when `l` is a nonempty digit string followed by
exactly `suf`, return the numeral's value. -/
def matchNumSuffix (suf l : List Char) : Option ℕ :=
  let p := l.take (l.length - suf.length)
  if l.drop (l.length - suf.length) = suf ∧ p ≠ [] ∧ p.all Char.isDigit
  then some (natOfDigits p) else none

/-- `_to_money` from `oneqscore.py` / `ai.py`: normalize Korean money
strings to an integer amount of won.  Comparative qualifiers
(이하/미만/이상/초과) are stripped; single 만/천/원-suffixed numerals are
scaled; anything else falls back to concatenating the digits. -/
def toMoneyPy (v : Option String) (dflt : ℤ) : ℤ :=
  match v with
  | none => dflt
  | some str =>
    let l1 := pytrim str.data
    let l2 := l1.filter (fun c => !(c = ',' || c = ' '))
    let l3 :=
      if containsTok l2 ['이', '하'] || containsTok l2 ['미', '만'] then
        removePair '미' '만' (removePair '이' '하' l2)
      else if containsTok l2 ['이', '상'] || containsTok l2 ['초', '과'] then
        removePair '초' '과' (removePair '이' '상' l2)
      else l2
    if l3 ≠ [] ∧ l3.all Char.isDigit then (natOfDigits l3 : ℤ)
    else match matchNumSuffix ['만', '원'] l3 with
    | some n => (10000 * n : ℕ)
    | none => match matchNumSuffix ['만'] l3 with
    | some n => (10000 * n : ℕ)
    | none => match matchNumSuffix ['천', '원'] l3 with
    | some n => (1000 * n : ℕ)
    | none => match matchNumSuffix ['천'] l3 with
    | some n => (1000 * n : ℕ)
    | none => match matchNumSuffix ['원'] l3 with
    | some n => (n : ℕ)
    | none =>
      let ds := l3.filter Char.isDigit
      if ds ≠ [] then (natOfDigits ds : ℤ) else dflt

/-- A run of 2 to 4 decimal digits. -/
def digitRun24 (l : List Char) : Bool :=
  l.all Char.isDigit && decide (2 ≤ l.length) && decide (l.length ≤ 4)

/-- `_parse_size_mm`: recognize `WxH[mm]`, a diameter `ø N mm` form and the
A/B-series paper table; everything else is `(none, none)`.
(`Char.toLower` is ASCII-only; the non-ASCII `Ø` is therefore accepted
directly alongside its Python-lowered form `ø`.) -/
def parseSizeMm (size : Option String) : Option ℤ × Option ℤ :=
  match size with
  | none => (none, none)
  | some sz =>
    if sz = "" then (none, none) else
    let s := ((sz.data.map Char.toLower).filter (· ≠ ' ')).map
      (fun c => if c = '×' then 'x' else c)
    -- `^[øo]?\s*(\d{2,4})mm$`
    let s1 := match s with
      | c :: t => if c = 'ø' ∨ c = 'o' ∨ c = 'Ø' then t else s
      | [] => s
    let d0 := s1.takeWhile Char.isDigit
    let r0 := s1.dropWhile Char.isDigit
    if digitRun24 d0 && decide (r0 = ['m', 'm'])
    then (some (natOfDigits d0 : ℤ), some (natOfDigits d0 : ℤ))
    else matchWxH s
where
  /-- `^(\d{2,4})x(\d{2,4})(mm)?$` plus the standard-size table. -/
  matchWxH (s : List Char) : Option ℤ × Option ℤ :=
    let d1 := s.takeWhile Char.isDigit
    let r1 := s.dropWhile Char.isDigit
    match r1 with
    | 'x' :: r2 =>
      let d2 := r2.takeWhile Char.isDigit
      let r3 := r2.dropWhile Char.isDigit
      if digitRun24 d1 && digitRun24 d2 && (r3 = [] || r3 = ['m', 'm'])
      then ((natOfDigits d1 : ℤ), (natOfDigits d2 : ℤ))
      else sizeTable s
    | _ => sizeTable s
  /-- The fixed A0–A5 / B3–B5 lookup table, in millimeters. -/
  sizeTable (s : List Char) : Option ℤ × Option ℤ :=
    if s = ['a', '0'] then (some 841, some 1189)
    else if s = ['a', '1'] then (some 594, some 841)
    else if s = ['a', '2'] then (some 420, some 594)
    else if s = ['a', '3'] then (some 297, some 420)
    else if s = ['a', '4'] then (some 210, some 297)
    else if s = ['a', '5'] then (some 148, some 210)
    else if s = ['b', '3'] then (some 353, some 500)
    else if s = ['b', '4'] then (some 250, some 353)
    else if s = ['b', '5'] then (some 176, some 250)
    else (none, none)

/-- A JSON scalar that the lead-time profile may hold: a number or a
string.  `float(...)` applied to a non-numeric string raises in Python. -/
inductive JVal where
  | num (q : ℚ)
  | str (s : String)
deriving DecidableEq

/-- Python `float(v)` on a JSON scalar: numbers pass through, digit
strings parse, anything else raises (modelled as `Except.error`). -/
def pyFloat : JVal → Except Unit ℚ
  | JVal.num q => Except.ok q
  | JVal.str s =>
    let ds := pytrim s.data
    if ds ≠ [] ∧ ds.all Char.isDigit then Except.ok ((natOfDigits ds : ℤ) : ℚ)
    else Except.error ()

/-- Per-category pricing rules; `none` = key absent from the JSON dict. -/
structure PricingOverride where
  mode : Option String
  base_unit_price : Option ℚ
  rate_per_cm2 : Option ℚ
  color_multiplier : Option ℚ
  duplex_multiplier : Option ℚ
  finishing_prices : Option (List (String × ℚ))
deriving DecidableEq

/-- The pricing dict with no keys. -/
def emptyPricing : PricingOverride := ⟨none, none, none, none, none, none⟩

/-- Lead-time profile; `none` = key absent.  `base_hours` is
dynamically typed (see `JVal`). -/
structure LeadOverride where
  base_hours : Option JVal
  per_100_units : Option ℚ
  rush_multiplier : Option ℚ
  finishing_add_hours : Option (List (String × ℚ))
deriving DecidableEq

/-- Capacity info; `none` = key absent. -/
structure CapacityOverride where
  daily_capacity_units : Option ℤ
deriving DecidableEq

/-- The vendor's `temp_step2_data` JSON blob (a missing blob behaves like
the empty dict). -/
structure Step2Data where
  pricing_rules : List (String × PricingOverride)
  leadtime_profile : Option LeadOverride
  capacity_info : Option CapacityOverride
deriving DecidableEq

def emptyStep2 : Step2Data := ⟨[], none, none⟩

/-- The `PrintShop` model fields read by the scoring engine. -/
structure PrintShop where
  id : ℕ
  name : String
  address : String
  phone : String
  production_time : String
  delivery_options : String
  is_verified : Bool
  is_active : Bool
  registration_status : String
  available_categories : List String
  temp_step2_data : Step2Data
  business_card_paper_options : String
  business_card_finishing_options : String
  business_card_quantity_price_info : String
  poster_paper_options : String
  poster_coating_options : String
  poster_quantity_price_info : String
  banner_size_options : String
  banner_stand_options : String
  banner_quantity_price_info : String
  sticker_type_options : String
  sticker_size_options : String
  sticker_quantity_price_info : String
  banner_large_size_options : String
  banner_large_processing_options : String
  banner_large_quantity_price_info : String
  brochure_paper_options : String
  brochure_folding_options : String
  brochure_size_options : String
deriving DecidableEq

/-- The normalized slot map handed to the ranking engine (string-valued
slots; `none` = key absent). -/
structure Slots where
  category : Option String
  item_type : Option String
  quantity : Option String
  size : Option String
  finishing : Option String
  printing : Option String
  coating : Option String
  paper : Option String
  material : Option String
  region : Option String
  delivery_method : Option String
  due_days : Option String
  budget : Option String
deriving DecidableEq

/-- A slot map with every key absent. -/
def emptySlots : Slots :=
  ⟨none, none, none, none, none, none, none, none, none, none, none, none, none⟩

/-- `_shop_price_factor`: deterministic 0.90–1.10 price variance from the
vendor id and name. -/
def shopPriceFactor (shop : PrintShop) : ℚ :=
  let base : ℕ := if shop.id = 0 then 1 else shop.id
  let name_sum : ℕ := (shop.name.data.map Char.toNat).sum
  let seed : ℕ := (base * 131 + name_sum) % 21
  9/10 + (seed : ℚ) / 100

/-- `_area_cm2`: zero/unknown dimensions give area 0. -/
def areaCm2 (w h : Option ℤ) : ℚ :=
  match w, h with
  | some w, some h => if w = 0 ∨ h = 0 then 0 else ((w * h : ℤ) : ℚ) / 100
  | _, _ => 0

/-- `_norm_finishing`: canonicalize the finishing slot to
MATTE/GLOSS/NONE or an upper-cased passthrough. -/
def normFinishing (finishing : Option String) : String :=
  let f := lowerStr (String.mk (pytrim (finishing.getD "").data))
  if strContainsPy f "무광" || strContainsPy f "matte" then "MATTE"
  else if strContainsPy f "유광" || strContainsPy f "gloss" then "GLOSS"
  else if strContainsPy f "없" then "NONE"
  else if f = "" then "NONE" else upperStr f

/-- `_contains`: case-insensitive substring test used by the work-fit
scorer. -/
def containsCI (text needle : String) : Bool :=
  containsTok (text.data.map Char.toLower) (needle.data.map Char.toLower)

/-- Association-list lookup (Python `dict.get`). -/
def assocGet {α : Type} (l : List (String × α)) (k : String) : Option α :=
  (l.find? (fun p => p.1 = k)).map (fun p => p.2)

/-- The built-in per-category pricing defaults of `_shop_rules`. -/
def defaultPricing (category : String) : PricingOverride :=
  if category = "명함" then
    ⟨some "unit", some 300, none, some (6/5), some (3/2),
     some [("GLOSS", 50), ("MATTE", 80), ("NONE", 0)]⟩
  else if category = "포스터" then
    ⟨some "area", none, some (1/50), some (6/5), some (17/10),
     some [("GLOSS", 200), ("MATTE", 250), ("NONE", 0)]⟩
  else if category = "배너" then
    ⟨some "area", none, some (3/200), some (23/20), some 1, some [("NONE", 0)]⟩
  else if category = "스티커" then
    ⟨some "area", none, some (3/100), some (6/5), some 1,
     some [("GLOSS", 60), ("MATTE", 80), ("NONE", 0)]⟩
  else if category = "현수막" then
    ⟨some "area", none, some (3/250), some 1, some 1, some [("NONE", 0)]⟩
  else if category = "브로슈어" then
    ⟨some "unit", some 700, none, some (6/5), some (8/5), some [("NONE", 0)]⟩
  else emptyPricing

/-- The built-in lead-time defaults of `_shop_rules`. -/
def defaultLead : LeadOverride :=
  ⟨some (JVal.num 24), some (3/2), some (17/20), some [("GLOSS", 6), ("MATTE", 8)]⟩

/-- `{**defaults, **overrides}` for the pricing rules of one category. -/
def mergedPricing (shop : PrintShop) (category : String) : PricingOverride :=
  let d := defaultPricing category
  let o := (assocGet shop.temp_step2_data.pricing_rules category).getD emptyPricing
  ⟨o.mode <|> d.mode,
   o.base_unit_price <|> d.base_unit_price,
   o.rate_per_cm2 <|> d.rate_per_cm2,
   o.color_multiplier <|> d.color_multiplier,
   o.duplex_multiplier <|> d.duplex_multiplier,
   o.finishing_prices <|> d.finishing_prices⟩

/-- `{**default_lead, **lead}`. -/
def mergedLead (shop : PrintShop) : LeadOverride :=
  let o := shop.temp_step2_data.leadtime_profile.getD ⟨none, none, none, none⟩
  ⟨o.base_hours <|> defaultLead.base_hours,
   o.per_100_units <|> defaultLead.per_100_units,
   o.rush_multiplier <|> defaultLead.rush_multiplier,
   o.finishing_add_hours <|> defaultLead.finishing_add_hours⟩

/-- `_estimate_price`: heuristic total price for one vendor. -/
def estimatePrice (shop : PrintShop) (category : String) (slots : Slots) : ℤ :=
  let q := toIntPy slots.quantity 1
  let wh := parseSizeMm slots.size
  let finishing := normFinishing slots.finishing
  let printing := lowerStr (slots.printing.getD "")
  let pr := mergedPricing shop category
  let mode := pr.mode.getD "unit"
  let color_mul := pr.color_multiplier.getD 1
  let duplex_mul := pr.duplex_multiplier.getD 1
  let is_color := strContainsPy printing "컬러" || strContainsPy printing "color"
    || pyTruthy slots.coating
  let is_duplex := strContainsPy printing "양면"
  let base0 : ℚ :=
    if mode = "area" then
      let area := areaCm2 wh.1 wh.2
      (if area = 0 then 1 else area) * pr.rate_per_cm2.getD (1/50)
    else pr.base_unit_price.getD 300
  let base1 := if is_color then base0 * color_mul else base0
  let base2 := if is_duplex then base1 * duplex_mul else base1
  let fin_prices := pr.finishing_prices.getD []
  let base3 := base2 +
    ((assocGet fin_prices finishing).getD ((assocGet fin_prices "NONE").getD 0))
  let total := base3 * (q : ℚ) * shopPriceFactor shop
  max 1 total.ceil

/-- `_estimate_eta_hours`: completion estimate in hours; `float()` on a
corrupt `base_hours` propagates an exception. -/
def estimateEtaHours (shop : PrintShop) (category : String) (slots : Slots) :
    Except Unit ℚ :=
  let q := toIntPy slots.quantity 1
  let finishing := normFinishing slots.finishing
  let user_region := String.mk ((slots.region.getD "").data.filter (· ≠ ' '))
  let wh := parseSizeMm slots.size
  let lead := mergedLead shop
  match pyFloat (lead.base_hours.getD (JVal.num 24)) with
  | Except.error e => Except.error e
  | Except.ok base =>
    let per100 := lead.per_100_units.getD (3/2)
    let rush := lead.rush_multiplier.getD (17/20)
    let fin_add := (assocGet (lead.finishing_add_hours.getD []) finishing).getD 0
    let qty_term := (q : ℚ) / 100 * per100
    let area_term : ℚ :=
      if category = "배너" ∨ category = "현수막" ∨ category = "포스터"
      then min 24 (areaCm2 wh.1 wh.2 / 10000) else 0
    let eta0 := (base + qty_term + area_term + fin_add) * rush
    let eta1 :=
      if user_region ≠ "" ∧ shop.address ≠ "" ∧
         containsTok (shop.address.data.filter (· ≠ ' ')) user_region.data
      then max 0 (eta0 - 6) else eta0
    let dm := lowerStr (slots.delivery_method.getD "")
    let ship : ℚ :=
      if strContainsPy dm "pickup" then 0
      else if strContainsPy dm "courier" then 6
      else if strContainsPy dm "truck" then 12
      else if strContainsPy dm "parcel" then 24
      else 0
    Except.ok (eta1 + ship)

/-- `_due_fit`: graduated 0–100 deadline-feasibility score. -/
def dueFit (now eta_hours : ℚ) (due_days : ℤ) : ℚ :=
  let finish_time := now + eta_hours
  let deadline := now + 24 * ((max due_days 1 : ℤ) : ℚ)
  let gap_h := deadline - finish_time
  if 0 ≤ gap_h then 100
  else if -24 ≤ gap_h then 80
  else if -48 ≤ gap_h then 60
  else if -72 ≤ gap_h then 40
  else if -120 ≤ gap_h then 20
  else 5

/-- The category-dependent capability text fields used by `_work_fit`:
(paper source, finishing source, size source). -/
def workSources (shop : PrintShop) (category : String) : String × String × String :=
  if category = "명함" then
    (shop.business_card_paper_options, shop.business_card_finishing_options,
     shop.business_card_quantity_price_info)
  else if category = "포스터" then
    (shop.poster_paper_options, shop.poster_coating_options,
     shop.poster_quantity_price_info)
  else if category = "배너" then
    (shop.banner_size_options, shop.banner_stand_options,
     shop.banner_quantity_price_info)
  else if category = "스티커" then
    (shop.sticker_type_options, shop.sticker_size_options,
     shop.sticker_quantity_price_info)
  else if category = "현수막" then
    (shop.banner_large_size_options, shop.banner_large_processing_options,
     shop.banner_large_quantity_price_info)
  else if category = "브로슈어" then
    (shop.brochure_paper_options, shop.brochure_folding_options,
     shop.brochure_size_options)
  else ("", "", "")

/-- `_work_fit`: keyword/capacity specification-fit score (0–100, one
decimal). -/
def workFit (shop : PrintShop) (category : String) (slots : Slots) : ℚ :=
  let q := toIntPy slots.quantity 1
  let finishing := normFinishing slots.finishing
  let size := slots.size.getD ""
  let paper := orStr slots.paper (orStr slots.material "")
  let srcs := workSources shop category
  let s1 : ℚ := if paper ≠ "" ∧ containsCI srcs.1 paper then 35 else 0
  let fin_ko := if finishing = "MATTE" then "무광"
    else if finishing = "GLOSS" then "유광" else finishing
  let s2 : ℚ := if finishing ≠ "NONE" ∧
      (containsCI srcs.2.1 fin_ko || containsCI srcs.2.1 finishing) then 25 else 0
  let s3 : ℚ := if ¬(category = "명함" ∨ category = "포스터") ∧ size ≠ "" ∧
      containsCI srcs.2.2 size then 20 else 0
  let daily := (shop.temp_step2_data.capacity_info.bind
    (fun c => c.daily_capacity_units)).getD 2000
  let margin := max 0 (((daily - q : ℤ) : ℚ) / ((max 1 daily : ℤ) : ℚ))
  round1 (min 100 (s1 + s2 + s3 + 20 * margin))

/-- Insertion-ordered dict insert (`d[k] = v` on a Python dict keyed by
shop id). -/
def dictInsert {α : Type} (d : List (ℕ × α)) (k : ℕ) (v : α) : List (ℕ × α) :=
  if d.any (fun p => p.1 = k) then
    d.map (fun p => if p.1 = k then (k, v) else p)
  else d ++ [(k, v)]

/-- Dict lookup by shop id. -/
def dictGet {α : Type} (d : List (ℕ × α)) (k : ℕ) : Option α :=
  (d.find? (fun p => p.1 = k)).map (fun p => p.2)

/-- `_price_fit_scores`: relative price score over the candidate pool with
budget shaping; insertion order is preserved.  (On the empty dict Python's
`min()` would raise; `score_and_rank` never calls it with one.) -/
def priceFitScores (total_prices : List (ℕ × ℤ)) (budget : ℤ) : List (ℕ × ℚ) :=
  match total_prices with
  | [] => []
  | p0 :: _ =>
    let mn := total_prices.foldl (fun a x => min a x.2) p0.2
    let mx := total_prices.foldl (fun a x => max a x.2) p0.2
    let rng : ℤ := if mx - mn = 0 then 1 else mx - mn
    total_prices.map (fun pv =>
      let base : ℚ := 100 * ((mx - pv.2 : ℤ) : ℚ) / (rng : ℚ)
      let shaped : ℚ :=
        if budget ≠ 0 ∧ 0 < budget then
          if budget < pv.2 then
            max 0 (base - min 50 (((pv.2 - budget : ℤ) : ℚ) / (budget : ℚ) * 100))
          else
            min 100 (base + min 20 (((budget - pv.2 : ℤ) : ℚ) / (budget : ℚ) * 50))
        else base
      (pv.1, round1 (min 100 (max 0 shaped))))

/-- The `scores` object attached to each ranked row. -/
structure Scores where
  price_raw : ℚ
  due_raw : ℚ
  work_raw : ℚ
  price_40 : ℤ
  due_30 : ℤ
  work_30 : ℤ
  oneq_total : ℤ
deriving DecidableEq

/-- Placeholder before the weighting pass fills the real scores in
(Python builds the row dict first and mutates it later). -/
def dummyScores : Scores := ⟨0, 0, 0, 0, 0, 0, 0⟩

/-- One ranked candidate row. -/
structure Row where
  shop_id : ℕ
  shop_name : String
  total_price : ℤ
  eta_hours : ℚ
  due_score : ℚ
  work_score : ℚ
  phone : String
  production_time : String
  delivery_options : String
  is_verified : Bool
  scores : Scores
deriving DecidableEq

/-- The weighting pass of `score_and_rank` (lines 436–469): clamp the raw
scores, scale to 40/30/30, round, cap, and sum. -/
def mkScores (p_raw d_raw w_raw : ℚ) : Scores :=
  let p40 := min 40 (max 0 (pyRound (p_raw * (2/5))))
  let d30 := min 30 (max 0 (pyRound (d_raw * (3/10))))
  let w30 := min 30 (max 0 (pyRound (w_raw * (3/10))))
  ⟨round1 p_raw, round1 d_raw, round1 w_raw, p40, d30, w30, p40 + d30 + w30⟩

/-- Stable descending insertion by composite score: an element is placed
after every earlier element with an equal or higher score. -/
def insertRowDesc (r : Row) : List Row → List Row
  | [] => [r]
  | x :: xs =>
    if x.scores.oneq_total ≤ r.scores.oneq_total then r :: x :: xs
    else x :: insertRowDesc r xs

/-- Python's stable `sorted(rows, key=..., reverse=True)`. -/
def sortRowsDesc : List Row → List Row
  | [] => []
  | x :: xs => insertRowDesc x (sortRowsDesc xs)

/-- The ranking result `{count, items, all}`. -/
structure RankResult where
  count : ℕ
  items : List Row
  all : List Row
deriving DecidableEq

/-- The per-candidate loop of `score_and_rank` (lines 413–431): estimate
price/ETA/scores per shop; an exception from the ETA estimate propagates
and aborts the whole loop. -/
def buildRows (now : ℚ) (category : String) (due_days : ℤ) (slots : Slots) :
    List PrintShop → Except Unit (List Row)
  | [] => Except.ok []
  | shop :: rest =>
    match estimateEtaHours shop category slots with
    | Except.error e => Except.error e
    | Except.ok eta =>
      match buildRows now category due_days slots rest with
      | Except.error e => Except.error e
      | Except.ok rows =>
        Except.ok
          ({ shop_id := shop.id
             shop_name := shop.name
             total_price := estimatePrice shop category slots
             eta_hours := round1 eta
             due_score := dueFit now eta due_days
             work_score := workFit shop category slots
             phone := shop.phone
             production_time := shop.production_time
             delivery_options := shop.delivery_options
             is_verified := shop.is_verified
             scores := dummyScores } :: rows)

/-- The Korean→English category mapping of `score_and_rank`. -/
def categoryMapping : List (String × String) :=
  [("명함", "card"), ("배너", "banner"), ("포스터", "poster"),
   ("스티커", "sticker"), ("현수막", "banner2"), ("브로슈어", "brochure")]

/-- The requested (Korean) category: `slots.category or slots.item_type
or "명함"`. -/
def requestedCategory (slots : Slots) : String :=
  orStr slots.category (orStr slots.item_type "명함")

/-- The category after English mapping, used for the eligibility filter. -/
def englishCategory (slots : Slots) : String :=
  (assocGet categoryMapping (requestedCategory slots)).getD (requestedCategory slots)

/-- The eligibility test of the candidate filter: active, registration
completed, category supported. -/
def eligibleShop (english_category : String) (s : PrintShop) : Bool :=
  s.is_active && s.registration_status = "completed"
    && s.available_categories.contains english_category

/-- `score_and_rank`: filter the pool, score every candidate, weight and
sort, and return `{count, items, all}`.  A scoring exception propagates
(there is no `try/except` around the scoring loop). -/
def scoreAndRank (now : ℚ) (slots : Slots) (shops : List PrintShop) :
    Except Unit RankResult :=
  let category := requestedCategory slots
  let due_days := toIntPy slots.due_days 3
  let budget := toIntPy slots.budget 0
  let english_category := englishCategory slots
  let candidates := shops.filter (eligibleShop english_category)
  if candidates = [] then Except.ok ⟨0, [], []⟩
  else
    match buildRows now category due_days slots candidates with
    | Except.error e => Except.error e
    | Except.ok rows =>
      let total_prices := rows.foldl
        (fun d r => dictInsert d r.shop_id r.total_price) []
      let due_scores := rows.foldl
        (fun d r => dictInsert d r.shop_id r.due_score) []
      let work_scores := rows.foldl
        (fun d r => dictInsert d r.shop_id r.work_score) []
      let price_scores := priceFitScores total_prices budget
      let rows2 := rows.map (fun r =>
        let p_raw := max 0 (min 100 ((dictGet price_scores r.shop_id).getD 0))
        let d_raw := max 0 (min 100 ((dictGet due_scores r.shop_id).getD 0))
        let w_raw := max 0 (min 100 ((dictGet work_scores r.shop_id).getD 0))
        { r with scores := mkScores p_raw d_raw w_raw })
      let rows_sorted := sortRowsDesc rows2
      let top3 := rows_sorted.take 3
      Except.ok ⟨top3.length, top3, rows_sorted⟩

/-- The ETA formula as the specification words it: shipping hours are
added first and the regional discount is subtracted last, with the final
result floored at zero.  (Comparison definition for the lead-time claim;
follows the spec text, not the code.) -/
def etaClaimFormula (shop : PrintShop) (category : String) (slots : Slots) :
    Except Unit ℚ :=
  let q := toIntPy slots.quantity 1
  let finishing := normFinishing slots.finishing
  let user_region := String.mk ((slots.region.getD "").data.filter (· ≠ ' '))
  let wh := parseSizeMm slots.size
  let lead := mergedLead shop
  match pyFloat (lead.base_hours.getD (JVal.num 24)) with
  | Except.error e => Except.error e
  | Except.ok base =>
    let per100 := lead.per_100_units.getD (3/2)
    let rush := lead.rush_multiplier.getD (17/20)
    let fin_add := (assocGet (lead.finishing_add_hours.getD []) finishing).getD 0
    let qty_term := (q : ℚ) / 100 * per100
    let area_term : ℚ :=
      if category = "배너" ∨ category = "현수막" ∨ category = "포스터"
      then min 24 (areaCm2 wh.1 wh.2 / 10000) else 0
    let dm := lowerStr (slots.delivery_method.getD "")
    let ship : ℚ :=
      if strContainsPy dm "pickup" then 0
      else if strContainsPy dm "courier" then 6
      else if strContainsPy dm "truck" then 12
      else if strContainsPy dm "parcel" then 24
      else 0
    let core := (base + qty_term + area_term + fin_add) * rush + ship
    let discount : ℚ :=
      if user_region ≠ "" ∧ shop.address ≠ "" ∧
         containsTok (shop.address.data.filter (· ≠ ' ')) user_region.data
      then 6 else 0
    Except.ok (max 0 (core - discount))

/-- The work-fit formula as the claim words it: the plain (unrounded) sum
of the three keyword bonuses and the capacity-headroom term, capped at
100.  (Comparison definition; the denominator keeps the source's
floor at 1, the claim is silent on a nonpositive declared capacity.) -/
def workFitClaimFormula (shop : PrintShop) (category : String) (slots : Slots) : ℚ :=
  let q := toIntPy slots.quantity 1
  let finishing := normFinishing slots.finishing
  let size := slots.size.getD ""
  let paper := orStr slots.paper (orStr slots.material "")
  let srcs := workSources shop category
  let s1 : ℚ := if paper ≠ "" ∧ containsCI srcs.1 paper then 35 else 0
  let fin_ko := if finishing = "MATTE" then "무광"
    else if finishing = "GLOSS" then "유광" else finishing
  let s2 : ℚ := if finishing ≠ "NONE" ∧
      (containsCI srcs.2.1 fin_ko || containsCI srcs.2.1 finishing) then 25 else 0
  let s3 : ℚ := if ¬(category = "명함" ∨ category = "포스터") ∧ size ≠ "" ∧
      containsCI srcs.2.2 size then 20 else 0
  let daily := (shop.temp_step2_data.capacity_info.bind
    (fun c => c.daily_capacity_units)).getD 2000
  let margin := max 0 (((daily - q : ℤ) : ℚ) / ((max 1 daily : ℤ) : ℚ))
  min 100 (s1 + s2 + s3 + 20 * margin)

/-- A minimal active, fully registered business-card vendor used by the
concrete test instances. -/
def baseShop : PrintShop :=
  { id := 1
    name := "a"
    address := ""
    phone := ""
    production_time := ""
    delivery_options := ""
    is_verified := false
    is_active := true
    registration_status := "completed"
    available_categories := ["card"]
    temp_step2_data := emptyStep2
    business_card_paper_options := ""
    business_card_finishing_options := ""
    business_card_quantity_price_info := ""
    poster_paper_options := ""
    poster_coating_options := ""
    poster_quantity_price_info := ""
    banner_size_options := ""
    banner_stand_options := ""
    banner_quantity_price_info := ""
    sticker_type_options := ""
    sticker_size_options := ""
    sticker_quantity_price_info := ""
    banner_large_size_options := ""
    banner_large_processing_options := ""
    banner_large_quantity_price_info := ""
    brochure_paper_options := ""
    brochure_folding_options := ""
    brochure_size_options := "" }

/-- Concrete vendor whose lead-time profile declares `base_hours = 0`. -/
def leadZeroBase : LeadOverride := ⟨some (JVal.num 0), none, none, none⟩

def step2ZeroBase : Step2Data := { emptyStep2 with leadtime_profile := some leadZeroBase }

def shop6 : PrintShop := { baseShop with address := "서울", temp_step2_data := step2ZeroBase }

/-- Slots requesting parcel delivery from the vendor's own region. -/
def slots6 : Slots := { emptySlots with region := some "서울", delivery_method := some "parcel" }

/-- Slots requesting a quantity of 3. -/
def slots7 : Slots := { emptySlots with quantity := some "3" }

/-- Lead-time profile holding a non-numeric `base_hours` (legal JSON,
`float()` raises on it). -/
def leadCorrupt : LeadOverride := ⟨some (JVal.str "abc"), none, none, none⟩

def step2Corrupt : Step2Data := { emptyStep2 with leadtime_profile := some leadCorrupt }

/-- A vendor whose scoring raises. -/
def badShop : PrintShop := { baseShop with id := 5, temp_step2_data := step2Corrupt }

/-- Sibling vendor of `baseShop` whose id is hashed to the same price
factor (`22 * 131 ≡ 1 * 131 (mod 21)`), so every score ties. -/
def shopB : PrintShop := { baseShop with id := 22 }

def shopC2 : PrintShop := { baseShop with id := 2 }

def shopC3 : PrintShop := { baseShop with id := 3 }

def shopC4 : PrintShop := { baseShop with id := 4 }

/-- The shop-id column of a ranking outcome (empty on an aborted run). -/
def rankIds (e : Except Unit RankResult) : List ℕ :=
  match e with
  | Except.ok r => r.all.map (fun x => x.shop_id)
  | Except.error _ => []

/-- Whether a ranking run aborted with an exception. -/
def rankAborted (e : Except Unit RankResult) : Bool :=
  match e with
  | Except.ok _ => false
  | Except.error _ => true

/-- Rationals with one decimal digit (every stored raw sub-score has this
form). -/
def IsTenth (x : ℚ) : Prop := ∃ m : ℤ, x = (m : ℚ) / 10

theorem ratFloor_intCast (n : ℤ) : ((n : ℚ)).floor = n := by
  unfold Rat.floor
  simp

theorem pyRound_intCast (n : ℤ) : pyRound (n : ℚ) = n := by
  unfold pyRound
  rw [ratFloor_intCast]
  norm_num

theorem isTenth_round1 (x : ℚ) : IsTenth (round1 x) := ⟨pyRound (10 * x), rfl⟩

theorem round1_eq_self {x : ℚ} (h : IsTenth x) : round1 x = x := by
  obtain ⟨m, rfl⟩ := h
  unfold round1
  rw [show (10 : ℚ) * ((m : ℚ) / 10) = (m : ℚ) by ring, pyRound_intCast]

theorem isTenth_zero : IsTenth 0 := ⟨0, by norm_num⟩

theorem round1_zero : round1 0 = 0 := round1_eq_self isTenth_zero

theorem isTenth_hundred : IsTenth 100 := ⟨1000, by norm_num⟩

theorem isTenth_min {x y : ℚ} (hx : IsTenth x) (hy : IsTenth y) : IsTenth (min x y) := by
  obtain ⟨m, rfl⟩ := hx
  obtain ⟨n, rfl⟩ := hy
  exact ⟨min m n, by rw [Int.cast_min, min_div_div_right (by norm_num : (0:ℚ) ≤ 10)]⟩

theorem isTenth_max {x y : ℚ} (hx : IsTenth x) (hy : IsTenth y) : IsTenth (max x y) := by
  obtain ⟨m, rfl⟩ := hx
  obtain ⟨n, rfl⟩ := hy
  exact ⟨max m n, by rw [Int.cast_max, max_div_div_right (by norm_num : (0:ℚ) ≤ 10)]⟩

/-- The deadline score depends on `now` only through a cancelled
difference: it equals the graduated ladder on
`slack = 24 * max(due_days, 1) - eta`. -/
theorem dueFit_ladder (now eta : ℚ) (d : ℤ) :
    dueFit now eta d =
      (if 0 ≤ 24 * ((max d 1 : ℤ) : ℚ) - eta then 100
       else if -24 ≤ 24 * ((max d 1 : ℤ) : ℚ) - eta then 80
       else if -48 ≤ 24 * ((max d 1 : ℤ) : ℚ) - eta then 60
       else if -72 ≤ 24 * ((max d 1 : ℤ) : ℚ) - eta then 40
       else if -120 ≤ 24 * ((max d 1 : ℤ) : ℚ) - eta then 20
       else 5) := by
  simp only [dueFit, add_sub_add_left_eq_sub]

theorem dueFit_now_indep (n1 n2 eta : ℚ) (d : ℤ) :
    dueFit n1 eta d = dueFit n2 eta d := by
  rw [dueFit_ladder, dueFit_ladder]

theorem dueFit_pos (now eta : ℚ) (d : ℤ) : 0 < dueFit now eta d := by
  rw [dueFit_ladder]
  split_ifs <;> norm_num

theorem dueFit_isTenth (now eta : ℚ) (d : ℤ) : IsTenth (dueFit now eta d) := by
  rw [dueFit_ladder]
  split_ifs
  · exact ⟨1000, by norm_num⟩
  · exact ⟨800, by norm_num⟩
  · exact ⟨600, by norm_num⟩
  · exact ⟨400, by norm_num⟩
  · exact ⟨200, by norm_num⟩
  · exact ⟨50, by norm_num⟩

/-- C4: the deadline score is a pure function of the slack between the
due date (due-days floored at one day, in hours) and the ETA, following
the graduated ladder 100/80/60/40/20 with positive floor 5 — never 0 —
and `due_days = 1` with a 96-hour ETA lands on the −72h rung, scoring 40. -/
theorem C4_deadline_ladder (now eta : ℚ) (d : ℤ) :
    (dueFit now eta d =
      (if 0 ≤ 24 * ((max d 1 : ℤ) : ℚ) - eta then 100
       else if -24 ≤ 24 * ((max d 1 : ℤ) : ℚ) - eta then 80
       else if -48 ≤ 24 * ((max d 1 : ℤ) : ℚ) - eta then 60
       else if -72 ≤ 24 * ((max d 1 : ℤ) : ℚ) - eta then 40
       else if -120 ≤ 24 * ((max d 1 : ℤ) : ℚ) - eta then 20
       else 5)) ∧
    0 < dueFit now eta d ∧
    dueFit now 96 1 = 40 := by
  refine ⟨dueFit_ladder now eta d, dueFit_pos now eta d, ?_⟩
  rw [dueFit_ladder]
  norm_num

theorem buildRows_now_indep (n1 n2 : ℚ) (category : String) (dd : ℤ) (slots : Slots) :
    ∀ l, buildRows n1 category dd slots l = buildRows n2 category dd slots l := by
  intro l
  induction l with
  | nil => rfl
  | cons shop rest ih =>
    unfold buildRows
    cases estimateEtaHours shop category slots with
    | error e => rfl
    | ok eta =>
      dsimp only
      rw [ih]
      cases buildRows n2 category dd slots rest with
      | error e => rfl
      | ok rows =>
        dsimp only
        rw [dueFit_now_indep n1 n2 eta dd]

theorem scoreAndRank_now_indep (n1 n2 : ℚ) (slots : Slots) (shops : List PrintShop) :
    scoreAndRank n1 slots shops = scoreAndRank n2 slots shops := by
  simp only [scoreAndRank]
  rw [buildRows_now_indep n1 n2]

theorem shopPriceFactor_bounds (shop : PrintShop) :
    9/10 ≤ shopPriceFactor shop ∧ shopPriceFactor shop ≤ 11/10 := by
  unfold shopPriceFactor
  have h1 : ((shop.id * 131 + (shop.name.data.map Char.toNat).sum) % 21) < 21 :=
    Nat.mod_lt _ (by norm_num)
  have h2 : (((if shop.id = 0 then 1 else shop.id) * 131 +
      (shop.name.data.map Char.toNat).sum) % 21) < 21 :=
    Nat.mod_lt _ (by norm_num)
  constructor
  · have : (0:ℚ) ≤ ((((if shop.id = 0 then 1 else shop.id) * 131 +
        (shop.name.data.map Char.toNat).sum) % 21 : ℕ) : ℚ) / 100 := by positivity
    linarith
  · have h3 : ((((if shop.id = 0 then 1 else shop.id) * 131 +
        (shop.name.data.map Char.toNat).sum) % 21 : ℕ) : ℚ) ≤ 20 := by
      have := Nat.lt_succ_iff.mp (Nat.lt_succ_of_lt h2)
      exact_mod_cast Nat.cast_le.mpr (Nat.lt_succ_iff.mp h2)
    linarith

/-- C9: ranking is wall-clock independent — two invocations at different
times return identical results; the vendor price-variance factor lies in
[0.90, 1.10] and is by construction a pure function of the vendor id and
name; and the deadline score is independent of the current time because
it cancels out of the slack. -/
theorem C9_determinism (now1 now2 : ℚ) (slots : Slots) (shops : List PrintShop)
    (shop : PrintShop) (t1 t2 eta : ℚ) (d : ℤ) :
    scoreAndRank now1 slots shops = scoreAndRank now2 slots shops ∧
    9/10 ≤ shopPriceFactor shop ∧ shopPriceFactor shop ≤ 11/10 ∧
    dueFit t1 eta d = dueFit t2 eta d :=
  ⟨scoreAndRank_now_indep now1 now2 slots shops,
   (shopPriceFactor_bounds shop).1, (shopPriceFactor_bounds shop).2,
   dueFit_now_indep t1 t2 eta d⟩

theorem foldl_min_all_eq {l : List (ℕ × ℤ)} {v : ℤ} (hv : ∀ p ∈ l, p.2 = v) :
    l.foldl (fun a x => min a x.2) v = v := by
  induction l with
  | nil => rfl
  | cons y t ih =>
    have hy : y.2 = v := hv y (List.mem_cons_self y t)
    simp only [List.foldl_cons, hy, min_self]
    exact ih (fun p hp => hv p (List.mem_cons_of_mem y hp))

theorem foldl_max_all_eq {l : List (ℕ × ℤ)} {v : ℤ} (hv : ∀ p ∈ l, p.2 = v) :
    l.foldl (fun a x => max a x.2) v = v := by
  induction l with
  | nil => rfl
  | cons y t ih =>
    have hy : y.2 = v := hv y (List.mem_cons_self y t)
    simp only [List.foldl_cons, hy, max_self]
    exact ih (fun p hp => hv p (List.mem_cons_of_mem y hp))

/-- C3 (amended form): in a pool where every candidate has the identical
estimated price and no positive budget is given, the price-fit scorer
assigns every vendor 0 — the degenerate range is replaced by 1, so there
is no division by zero, but every price sits at the shared maximum and
scores `100 * (max - price) / 1 = 0`. -/
theorem C3_all_equal_prices_score_zero (tp : List (ℕ × ℤ)) (v : ℤ)
    (hv : ∀ p ∈ tp, p.2 = v) (budget : ℤ) (hb : budget ≤ 0) :
    ∀ q ∈ priceFitScores tp budget, q.2 = 0 := by
  intro q hq
  cases tp with
  | nil => simp [priceFitScores] at hq
  | cons p0 rest =>
    unfold priceFitScores at hq
    dsimp only at hq
    have h0 : p0.2 = v := hv p0 (List.mem_cons_self p0 rest)
    rw [h0, foldl_min_all_eq hv, foldl_max_all_eq hv] at hq
    obtain ⟨pv, hpv, rfl⟩ := List.mem_map.mp hq
    have h2 : pv.2 = v := hv pv hpv
    have hcond : ¬(budget ≠ 0 ∧ 0 < budget) := by omega
    simp only [h2, sub_self, hcond, if_false]
    norm_num [round1_zero]

/-- C3 counterexample: a single-candidate pool with no budget receives
price score 0, not the neutral baseline 50 the specification promises. -/
theorem C3_counterexample :
    priceFitScores [(1, 10000)] 0 = [(1, 0)] ∧ (0 : ℚ) ≠ 50 := by
  constructor
  · decide
  · decide

/-- C3 witness: a two-vendor all-identical-price pool, scored via the
amended theorem. -/
theorem C3_witness :
    (∀ p ∈ [((1:ℕ), (10000:ℤ)), (2, 10000)], p.2 = 10000) ∧
    ∀ q ∈ priceFitScores [((1:ℕ), (10000:ℤ)), (2, 10000)] 0, q.2 = 0 :=
  ⟨by decide, C3_all_equal_prices_score_zero [(1, 10000), (2, 10000)] 10000
    (by decide) 0 (by decide)⟩

/-- The ETA formula in the order the code applies it: the regional
discount (6h, floored at zero at that point) is applied to the rushed
production estimate before the delivery-method shipping hours are added.
Components named as in the lead-time claim. -/
def etaCodeFormula (shop : PrintShop) (category : String) (slots : Slots) :
    Except Unit ℚ :=
  let q := toIntPy slots.quantity 1
  let finishing := normFinishing slots.finishing
  let user_region := String.mk ((slots.region.getD "").data.filter (· ≠ ' '))
  let wh := parseSizeMm slots.size
  let lead := mergedLead shop
  match pyFloat (lead.base_hours.getD (JVal.num 24)) with
  | Except.error e => Except.error e
  | Except.ok base =>
    let quantity_term := (q : ℚ) / 100 * lead.per_100_units.getD (3/2)
    let area_term : ℚ :=
      if category = "배너" ∨ category = "현수막" ∨ category = "포스터"
      then min 24 (areaCm2 wh.1 wh.2 / 10000) else 0
    let finishing_add := (assocGet (lead.finishing_add_hours.getD []) finishing).getD 0
    let production := (base + quantity_term + area_term + finishing_add) *
      lead.rush_multiplier.getD (17/20)
    let discounted :=
      if user_region ≠ "" ∧ shop.address ≠ "" ∧
         containsTok (shop.address.data.filter (· ≠ ' ')) user_region.data
      then max 0 (production - 6) else production
    let dm := lowerStr (slots.delivery_method.getD "")
    let shipping : ℚ :=
      if strContainsPy dm "pickup" then 0
      else if strContainsPy dm "courier" then 6
      else if strContainsPy dm "truck" then 12
      else if strContainsPy dm "parcel" then 24
      else 0
    Except.ok (discounted + shipping)

/-- C6 counterexample: with a declared `base_hours = 0`, a matching
region and parcel delivery, the code returns 24h (discount applied before
shipping, floored at zero first) while the claimed formula — shipping
added first, then the discount, floored at the end — gives 18.01275h. -/
theorem C6_counterexample :
    (match estimateEtaHours shop6 "명함" slots6 with
     | Except.ok q => q | Except.error _ => 0) = 24 ∧
    (match etaClaimFormula shop6 "명함" slots6 with
     | Except.ok q => q | Except.error _ => 0) = 72051/4000 ∧
    (24 : ℚ) ≠ 72051/4000 := by
  refine ⟨by decide, by decide, by decide⟩

/-- C6 (amended): the ETA is
`(base + (q/100)·per100 + area_term + finishing_add) · rush`, with
`area_term = min(24, area/10000)` only for banner / large-banner /
poster; the fixed 6h regional discount is subtracted (floored at zero)
when the whitespace-stripped region is a substring of the
whitespace-stripped address, and only then are the shipping hours
(pickup 0 / courier 6 / truck 12 / parcel 24) added. -/
theorem C6_amended_eta_order (shop : PrintShop) (category : String) (slots : Slots) :
    estimateEtaHours shop category slots = etaCodeFormula shop category slots := by
  unfold estimateEtaHours etaCodeFormula
  rfl

/-- C7 counterexample: with quantity 3 and default capacity 2000 the
capacity headroom term is 20·1997/2000 = 19.97, and the code stores the
rounded 20.0, while the claimed un-rounded formula yields exactly 19.97. -/
theorem C7_counterexample :
    workFit baseShop "명함" slots7 = 20 ∧
    workFitClaimFormula baseShop "명함" slots7 = 1997/100 ∧
    (20 : ℚ) ≠ 1997/100 := by
  refine ⟨by decide, by decide, by decide⟩

/-- C7 (amended): the specification-fit score equals the claimed sum —
35·material-match + 25·finishing-match (0 when finishing is none) +
20·size-match (skipped for business cards and posters) + 20·capacity
headroom, capped at 100 — rounded to one decimal digit (Python's
banker's rounding), which the claim omitted. -/
theorem C7_amended_work_fit (shop : PrintShop) (category : String) (slots : Slots) :
    workFit shop category slots = round1 (workFitClaimFormula shop category slots) := by
  unfold workFit workFitClaimFormula
  rfl

theorem mem_insertRowDesc {x r : Row} {l : List Row} :
    x ∈ insertRowDesc r l ↔ x = r ∨ x ∈ l := by
  induction l with
  | nil => simp [insertRowDesc]
  | cons y ys ih =>
    unfold insertRowDesc
    by_cases hc : y.scores.oneq_total ≤ r.scores.oneq_total
    · simp [hc]
    · simp only [hc, if_false, List.mem_cons, ih]
      tauto

theorem mem_sortRowsDesc {x : Row} {l : List Row} :
    x ∈ sortRowsDesc l ↔ x ∈ l := by
  induction l with
  | nil => simp [sortRowsDesc]
  | cons y ys ih =>
    unfold sortRowsDesc
    rw [mem_insertRowDesc]
    simp [ih]

theorem length_insertRowDesc (r : Row) (l : List Row) :
    (insertRowDesc r l).length = l.length + 1 := by
  induction l with
  | nil => rfl
  | cons y ys ih =>
    unfold insertRowDesc
    by_cases hc : y.scores.oneq_total ≤ r.scores.oneq_total
    · simp [hc]
    · simp [hc, ih]

theorem length_sortRowsDesc (l : List Row) :
    (sortRowsDesc l).length = l.length := by
  induction l with
  | nil => rfl
  | cons y ys ih =>
    unfold sortRowsDesc
    rw [length_insertRowDesc, ih, List.length_cons]

theorem pairwise_insertRowDesc {r : Row} {l : List Row}
    (h : l.Pairwise (fun a b => b.scores.oneq_total ≤ a.scores.oneq_total)) :
    (insertRowDesc r l).Pairwise
      (fun a b => b.scores.oneq_total ≤ a.scores.oneq_total) := by
  induction l with
  | nil => simp [insertRowDesc]
  | cons y ys ih =>
    unfold insertRowDesc
    rcases List.pairwise_cons.mp h with ⟨hy, hys⟩
    by_cases hc : y.scores.oneq_total ≤ r.scores.oneq_total
    · rw [if_pos hc]
      refine List.pairwise_cons.mpr ⟨?_, h⟩
      intro b hb
      rcases List.mem_cons.mp hb with rfl | hb
      · exact hc
      · exact le_trans (hy b hb) hc
    · rw [if_neg hc]
      refine List.pairwise_cons.mpr ⟨?_, ih hys⟩
      intro b hb
      rcases mem_insertRowDesc.mp hb with rfl | hb
      · exact le_of_not_le hc
      · exact hy b hb

theorem pairwise_sortRowsDesc (l : List Row) :
    (sortRowsDesc l).Pairwise
      (fun a b => b.scores.oneq_total ≤ a.scores.oneq_total) := by
  induction l with
  | nil => simp [sortRowsDesc]
  | cons y ys ih =>
    unfold sortRowsDesc
    exact pairwise_insertRowDesc ih

theorem buildRows_ok_length (now : ℚ) (category : String) (dd : ℤ) (slots : Slots) :
    ∀ (l : List PrintShop) (rows : List Row),
      buildRows now category dd slots l = Except.ok rows → rows.length = l.length := by
  intro l
  induction l with
  | nil =>
    intro rows h
    unfold buildRows at h
    cases h
    rfl
  | cons shop rest ih =>
    intro rows h
    unfold buildRows at h
    cases heta : estimateEtaHours shop category slots with
    | error e => rw [heta] at h; cases h
    | ok eta =>
      rw [heta] at h
      cases hrec : buildRows now category dd slots rest with
      | error e => rw [hrec] at h; cases h
      | ok rows0 =>
        rw [hrec] at h
        cases h
        simp [ih rows0 hrec]

theorem buildRows_error_of_mem (now : ℚ) (category : String) (dd : ℤ) (slots : Slots)
    (shop : PrintShop) (herr : estimateEtaHours shop category slots = Except.error ()) :
    ∀ (l : List PrintShop), shop ∈ l →
      buildRows now category dd slots l = Except.error () := by
  intro l
  induction l with
  | nil => intro h; cases h
  | cons s rest ih =>
    intro hmem
    unfold buildRows
    rcases List.mem_cons.mp hmem with rfl | hmem
    · rw [herr]
    · cases heta : estimateEtaHours s category slots with
      | error e => cases e; rfl
      | ok eta => rw [ih hmem]

/-- C2 counterexample: two vendors that tie on every sub-score (ids 1 and
22 hash to the same price factor) are returned in input order — the two
permutations of the same pool produce different output orderings, so
there is no vendor-id tie-breaker. -/
theorem C2_counterexample :
    rankIds (scoreAndRank 0 emptySlots [baseShop, shopB]) = [1, 22] ∧
    rankIds (scoreAndRank 0 emptySlots [shopB, baseShop]) = [22, 1] ∧
    ([1, 22] : List ℕ) ≠ [22, 1] := by
  refine ⟨by decide, by decide, by decide⟩

/-- C2 (amended): the ranking sorts candidates in non-increasing
composite-score order with Python's stable sort; vendors with equal
composite scores keep the iteration order of the input vendor list (no
vendor-id tie-breaker exists), so permuting the input permutes tied
vendors in the output. -/
theorem C2_amended_sorted_desc (now : ℚ) (slots : Slots) (shops : List PrintShop)
    (res : RankResult) (h : scoreAndRank now slots shops = Except.ok res) :
    res.all.Pairwise (fun a b => b.scores.oneq_total ≤ a.scores.oneq_total) := by
  simp only [scoreAndRank] at h
  by_cases hc : shops.filter (eligibleShop (englishCategory slots)) = []
  · rw [if_pos hc] at h
    cases h
    simp
  · rw [if_neg hc] at h
    cases hb : buildRows now (requestedCategory slots) (toIntPy slots.due_days 3) slots
        (shops.filter (eligibleShop (englishCategory slots))) with
    | error e => rw [hb] at h; cases h
    | ok rows =>
      rw [hb] at h
      cases h
      exact pairwise_sortRowsDesc _

/-- The concrete two-vendor ranking outcome used as a witness instance. -/
def exRes2 : RankResult :=
  match scoreAndRank 0 emptySlots [baseShop, shopB] with
  | Except.ok r => r
  | Except.error _ => ⟨0, [], []⟩

theorem C2_amended_sorted_desc_witness :
    exRes2.all.Pairwise (fun a b => b.scores.oneq_total ≤ a.scores.oneq_total) :=
  C2_amended_sorted_desc 0 emptySlots [baseShop, shopB] exRes2 rfl

/-- C5 counterexample: with four eligible vendors the result's `count`
field is 3 (the size of the top-3 slice), not the eligible count 4. -/
theorem C5_counterexample :
    (([baseShop, shopC2, shopC3, shopC4].filter
        (eligibleShop (englishCategory emptySlots))).length = 4) ∧
    (match scoreAndRank 0 emptySlots [baseShop, shopC2, shopC3, shopC4] with
     | Except.ok r => r.count
     | Except.error _ => 0) = 3 ∧
    (3 : ℕ) ≠ 4 := by
  refine ⟨by decide, by decide, by decide⟩

/-- C5 (amended): a successful ranking returns the full sorted candidate
list in `all` (one row per eligible vendor), its first three elements in
`items`, and a `count` equal to the length of `items`, i.e.
`min(3, number of eligible vendors)` — not the eligible count itself. -/
theorem C5_amended_result_shape (now : ℚ) (slots : Slots) (shops : List PrintShop)
    (res : RankResult) (h : scoreAndRank now slots shops = Except.ok res) :
    res.items = res.all.take 3 ∧
    res.count = res.items.length ∧
    res.all.length = (shops.filter (eligibleShop (englishCategory slots))).length ∧
    res.count = min 3 res.all.length := by
  simp only [scoreAndRank] at h
  by_cases hc : shops.filter (eligibleShop (englishCategory slots)) = []
  · rw [if_pos hc] at h
    cases h
    simp [hc]
  · rw [if_neg hc] at h
    cases hb : buildRows now (requestedCategory slots) (toIntPy slots.due_days 3) slots
        (shops.filter (eligibleShop (englishCategory slots))) with
    | error e => rw [hb] at h; cases h
    | ok rows =>
      rw [hb] at h
      cases h
      refine ⟨rfl, rfl, ?_, ?_⟩
      · rw [length_sortRowsDesc, List.length_map]
        exact buildRows_ok_length _ _ _ _ _ rows hb
      · rw [List.length_take]

/-- The concrete four-vendor ranking outcome used as a witness instance. -/
def exRes5 : RankResult :=
  match scoreAndRank 0 emptySlots [baseShop, shopC2, shopC3, shopC4] with
  | Except.ok r => r
  | Except.error _ => ⟨0, [], []⟩

theorem C5_amended_result_shape_witness :
    exRes5.items = exRes5.all.take 3 ∧
    exRes5.count = exRes5.items.length ∧
    exRes5.all.length = ([baseShop, shopC2, shopC3, shopC4].filter
      (eligibleShop (englishCategory emptySlots))).length ∧
    exRes5.count = min 3 exRes5.all.length :=
  C5_amended_result_shape 0 emptySlots [baseShop, shopC2, shopC3, shopC4] exRes5 rfl

/-- C8 counterexample: one vendor whose lead-time configuration makes
`float()` raise aborts the entire ranking — the healthy vendor's result
is lost as well, instead of the corrupt vendor receiving a neutral
fallback score; alone, the healthy pool ranks fine. -/
theorem C8_counterexample :
    rankAborted (scoreAndRank 0 emptySlots [baseShop, badShop]) = true ∧
    rankAborted (scoreAndRank 0 emptySlots [baseShop]) = false := by
  refine ⟨by decide, by decide⟩

/-- C8 (amended): a scoring exception is not caught — if any eligible
vendor's ETA estimate raises, `score_and_rank` propagates the exception
and aborts the whole ranking, returning no result at all (the exception
handler in the source only covers the eligibility filter, where a failing
vendor is silently skipped, not given a fallback score). -/
theorem C8_amended_exception_aborts (now : ℚ) (slots : Slots) (shops : List PrintShop)
    (shop : PrintShop)
    (hmem : shop ∈ shops.filter (eligibleShop (englishCategory slots)))
    (herr : estimateEtaHours shop (requestedCategory slots) slots = Except.error ()) :
    scoreAndRank now slots shops = Except.error () := by
  simp only [scoreAndRank]
  rw [if_neg (List.ne_nil_of_mem hmem)]
  rw [buildRows_error_of_mem now (requestedCategory slots) (toIntPy slots.due_days 3)
    slots shop herr _ hmem]

theorem C8_amended_exception_aborts_witness :
    scoreAndRank 0 emptySlots [badShop] = Except.error () :=
  C8_amended_exception_aborts 0 emptySlots [badShop] badShop (by decide) rfl

theorem workFit_isTenth (shop : PrintShop) (category : String) (slots : Slots) :
    IsTenth (workFit shop category slots) := isTenth_round1 _

theorem mem_dictInsert {α : Type} {kv : ℕ × α} {d : List (ℕ × α)} {k : ℕ} {v : α}
    (h : kv ∈ dictInsert d k v) : kv.2 = v ∨ kv ∈ d := by
  unfold dictInsert at h
  by_cases hc : d.any (fun p => p.1 = k)
  · rw [if_pos hc] at h
    obtain ⟨p, hp, hkv⟩ := List.mem_map.mp h
    by_cases hpk : p.1 = k
    · rw [if_pos hpk] at hkv
      left
      rw [← hkv]
    · rw [if_neg hpk] at hkv
      right
      rw [← hkv]
      exact hp
  · rw [if_neg hc] at h
    rcases List.mem_append.mp h with h | h
    · right
      exact h
    · left
      rw [List.mem_singleton.mp h]

theorem foldl_dict_prop {α : Type} {P : α → Prop} (g : Row → α) :
    ∀ (rows : List Row) (init : List (ℕ × α)),
      (∀ kv ∈ init, P kv.2) → (∀ r ∈ rows, P (g r)) →
      ∀ kv ∈ rows.foldl (fun d r => dictInsert d r.shop_id (g r)) init, P kv.2 := by
  intro rows
  induction rows with
  | nil =>
    intro init hi _ kv hkv
    exact hi kv hkv
  | cons r rs ih =>
    intro init hi hr kv hkv
    simp only [List.foldl_cons] at hkv
    refine ih (dictInsert init r.shop_id (g r)) ?_
      (fun x hx => hr x (List.mem_cons_of_mem _ hx)) kv hkv
    intro kv2 hkv2
    rcases mem_dictInsert hkv2 with h | h
    · rw [h]
      exact hr r (List.mem_cons_self _ _)
    · exact hi kv2 h

theorem dictGet_prop {α : Type} {P : α → Prop} {d : List (ℕ × α)}
    (hd : ∀ kv ∈ d, P kv.2) (z : α) (h0 : P z) (k : ℕ) :
    P ((dictGet d k).getD z) := by
  unfold dictGet
  cases hf : d.find? (fun p => p.1 = k) with
  | none => simpa using h0
  | some p =>
    have hmem := List.mem_of_find?_eq_some hf
    simpa using hd p hmem

theorem priceFitScores_isTenth (tp : List (ℕ × ℤ)) (budget : ℤ) :
    ∀ kv ∈ priceFitScores tp budget, IsTenth kv.2 := by
  intro kv hkv
  cases tp with
  | nil => cases hkv
  | cons p0 rest =>
    unfold priceFitScores at hkv
    dsimp only at hkv
    obtain ⟨pv, hpv, rfl⟩ := List.mem_map.mp hkv
    exact isTenth_round1 _

theorem buildRows_ok_tenth (now : ℚ) (category : String) (dd : ℤ) (slots : Slots) :
    ∀ (l : List PrintShop) (rows : List Row),
      buildRows now category dd slots l = Except.ok rows →
      ∀ r ∈ rows, IsTenth r.due_score ∧ IsTenth r.work_score := by
  intro l
  induction l with
  | nil =>
    intro rows h r hr
    unfold buildRows at h
    cases h
    cases hr
  | cons shop rest ih =>
    intro rows h r hr
    unfold buildRows at h
    cases heta : estimateEtaHours shop category slots with
    | error e => rw [heta] at h; cases h
    | ok eta =>
      rw [heta] at h
      cases hrec : buildRows now category dd slots rest with
      | error e => rw [hrec] at h; cases h
      | ok rows0 =>
        rw [hrec] at h
        cases h
        rcases List.mem_cons.mp hr with rfl | hr
        · exact ⟨dueFit_isTenth now eta dd, workFit_isTenth shop category slots⟩
        · exact ih rows0 hrec r hr

theorem mkScores_spec {p d w : ℚ} (hp : IsTenth p) (hd : IsTenth d) (hw : IsTenth w) :
    (mkScores p d w).price_40 =
      min 40 (max 0 (pyRound ((mkScores p d w).price_raw * (2/5)))) ∧
    (mkScores p d w).due_30 =
      min 30 (max 0 (pyRound ((mkScores p d w).due_raw * (3/10)))) ∧
    (mkScores p d w).work_30 =
      min 30 (max 0 (pyRound ((mkScores p d w).work_raw * (3/10)))) ∧
    (mkScores p d w).oneq_total =
      (mkScores p d w).price_40 + (mkScores p d w).due_30 + (mkScores p d w).work_30 ∧
    0 ≤ (mkScores p d w).oneq_total ∧ (mkScores p d w).oneq_total ≤ 100 := by
  unfold mkScores
  dsimp only
  rw [round1_eq_self hp, round1_eq_self hd, round1_eq_self hw]
  refine ⟨rfl, rfl, rfl, rfl, ?_, ?_⟩
  · omega
  · omega

/-- C1: in every successful ranking, each candidate's weighted
contributions equal `pyRound(raw * 0.40)` clamped to [0,40] for price and
`pyRound(raw * 0.30)` clamped to [0,30] for deadline and fit, the
composite OneQ score is exactly their sum, and it is an integer in
[0, 100]. -/
theorem C1_weight_conservation (now : ℚ) (slots : Slots) (shops : List PrintShop)
    (res : RankResult) (h : scoreAndRank now slots shops = Except.ok res)
    (r : Row) (hr : r ∈ res.all) :
    r.scores.price_40 = min 40 (max 0 (pyRound (r.scores.price_raw * (2/5)))) ∧
    r.scores.due_30 = min 30 (max 0 (pyRound (r.scores.due_raw * (3/10)))) ∧
    r.scores.work_30 = min 30 (max 0 (pyRound (r.scores.work_raw * (3/10)))) ∧
    r.scores.oneq_total = r.scores.price_40 + r.scores.due_30 + r.scores.work_30 ∧
    0 ≤ r.scores.oneq_total ∧ r.scores.oneq_total ≤ 100 := by
  simp only [scoreAndRank] at h
  by_cases hc : shops.filter (eligibleShop (englishCategory slots)) = []
  · rw [if_pos hc] at h
    cases h
    cases hr
  · rw [if_neg hc] at h
    cases hb : buildRows now (requestedCategory slots) (toIntPy slots.due_days 3) slots
        (shops.filter (eligibleShop (englishCategory slots))) with
    | error e => rw [hb] at h; cases h
    | ok rows =>
      rw [hb] at h
      cases h
      have hr2 := mem_sortRowsDesc.mp hr
      obtain ⟨r0, hr0, rfl⟩ := List.mem_map.mp hr2
      have htenth := buildRows_ok_tenth now (requestedCategory slots)
        (toIntPy slots.due_days 3) slots _ rows hb
      have hpd : ∀ kv ∈ priceFitScores
          (rows.foldl (fun d r => dictInsert d r.shop_id r.total_price) [])
          (toIntPy slots.budget 0), IsTenth kv.2 :=
        priceFitScores_isTenth _ _
      have hdd : ∀ kv ∈ rows.foldl (fun d r => dictInsert d r.shop_id r.due_score) [],
          IsTenth kv.2 :=
        foldl_dict_prop _ rows [] (fun kv hkv => absurd hkv (List.not_mem_nil kv))
          (fun rr hrr => (htenth rr hrr).1)
      have hwd : ∀ kv ∈ rows.foldl (fun d r => dictInsert d r.shop_id r.work_score) [],
          IsTenth kv.2 :=
        foldl_dict_prop _ rows [] (fun kv hkv => absurd hkv (List.not_mem_nil kv))
          (fun rr hrr => (htenth rr hrr).2)
      have hp : IsTenth (max 0 (min 100 ((dictGet (priceFitScores
          (rows.foldl (fun d r => dictInsert d r.shop_id r.total_price) [])
          (toIntPy slots.budget 0)) r0.shop_id).getD 0))) :=
        isTenth_max isTenth_zero (isTenth_min isTenth_hundred
          (dictGet_prop hpd 0 isTenth_zero r0.shop_id))
      have hd : IsTenth (max 0 (min 100 ((dictGet
          (rows.foldl (fun d r => dictInsert d r.shop_id r.due_score) [])
          r0.shop_id).getD 0))) :=
        isTenth_max isTenth_zero (isTenth_min isTenth_hundred
          (dictGet_prop hdd 0 isTenth_zero r0.shop_id))
      have hw : IsTenth (max 0 (min 100 ((dictGet
          (rows.foldl (fun d r => dictInsert d r.shop_id r.work_score) [])
          r0.shop_id).getD 0))) :=
        isTenth_max isTenth_zero (isTenth_min isTenth_hundred
          (dictGet_prop hwd 0 isTenth_zero r0.shop_id))
      exact mkScores_spec hp hd hw

/-- A single-vendor ranking outcome and its first row, used as the
weight-conservation witness instance. -/
def exRes1 : RankResult :=
  match scoreAndRank 0 emptySlots [baseShop] with
  | Except.ok r => r
  | Except.error _ => ⟨0, [], []⟩

def exRow1 : Row := exRes1.all.headD ⟨0, "", 0, 0, 0, 0, "", "", "", false, dummyScores⟩

theorem C1_weight_conservation_witness :
    exRow1.scores.price_40 = min 40 (max 0 (pyRound (exRow1.scores.price_raw * (2/5)))) ∧
    exRow1.scores.due_30 = min 30 (max 0 (pyRound (exRow1.scores.due_raw * (3/10)))) ∧
    exRow1.scores.work_30 = min 30 (max 0 (pyRound (exRow1.scores.work_raw * (3/10)))) ∧
    exRow1.scores.oneq_total =
      exRow1.scores.price_40 + exRow1.scores.due_30 + exRow1.scores.work_30 ∧
    0 ≤ exRow1.scores.oneq_total ∧ exRow1.scores.oneq_total ≤ 100 :=
  C1_weight_conservation 0 emptySlots [baseShop] exRes1 rfl exRow1 (by decide)

theorem digit_ne {c : Char} (h : c.isDigit = true) {x : Char} (hx : x.isDigit = false) :
    c ≠ x := by
  rintro rfl
  rw [h] at hx
  cases hx

theorem not_ws_of_digit {c : Char} (h : c.isDigit = true) : isPyWs c = false := by
  have h1 : c ≠ ' ' := digit_ne h (by decide)
  have h2 : c ≠ '\t' := digit_ne h (by decide)
  have h3 : c ≠ '\n' := digit_ne h (by decide)
  have h4 : c ≠ '\x0d' := digit_ne h (by decide)
  have h5 : c ≠ '\x0b' := digit_ne h (by decide)
  have h6 : c ≠ '\x0c' := digit_ne h (by decide)
  simp [isPyWs, h1, h2, h3, h4, h5, h6]

theorem moneyKeep_digit {c : Char} (h : c.isDigit = true) :
    (!(c = ',' || c = ' ' : Bool)) = true := by
  have h1 : c ≠ ',' := digit_ne h (by decide)
  have h2 : c ≠ ' ' := digit_ne h (by decide)
  simp [h1, h2]

theorem dropWhile_ws_head {l : List Char}
    (h : ∀ c, l.head? = some c → isPyWs c = false) :
    l.dropWhile isPyWs = l := by
  cases l with
  | nil => rfl
  | cons x t =>
    rw [List.dropWhile_cons, if_neg]
    simp [h x rfl]

theorem pytrim_of_ends {l : List Char}
    (hhead : ∀ c, l.head? = some c → isPyWs c = false)
    (hlast : ∀ c, l.getLast? = some c → isPyWs c = false) : pytrim l = l := by
  unfold pytrim
  rw [dropWhile_ws_head hhead]
  rw [dropWhile_ws_head (fun c hc => hlast c (by rwa [List.head?_reverse] at hc))]
  exact List.reverse_reverse l

theorem pytrim_of_all {l : List Char} (h : ∀ c ∈ l, isPyWs c = false) : pytrim l = l := by
  refine pytrim_of_ends ?_ ?_
  · intro c hc
    cases l with
    | nil => cases hc
    | cons x t =>
      have hcx : c = x := by simpa using hc.symm
      exact h c (hcx ▸ List.mem_cons_self x t)
  · intro c hc
    exact h c (List.mem_of_getLast?_eq_some hc)

theorem isPrefixOf_subset {nee hay : List Char} (h : nee.isPrefixOf hay = true) :
    ∀ c ∈ nee, c ∈ hay := by
  have hp : nee <+: hay := by rwa [List.isPrefixOf_iff_prefix] at h
  exact fun c hc => hp.subset hc

theorem containsTok_subset {hay nee : List Char} (h : containsTok hay nee = true) :
    ∀ c ∈ nee, c ∈ hay := by
  induction hay with
  | nil =>
    intro c hc
    unfold containsTok at h
    rw [List.isEmpty_iff] at h
    subst h
    cases hc
  | cons x t ih =>
    intro c hc
    unfold containsTok at h
    rw [Bool.or_eq_true] at h
    rcases h with h | h
    · exact isPrefixOf_subset h c hc
    · exact List.mem_cons_of_mem x (ih h c hc)

/-- Characters that can appear in the canonical money strings. -/
abbrev MoneyChar (c : Char) : Prop :=
  c.isDigit = true ∨ c = '만' ∨ c = '천' ∨ c = '원'

theorem money_tokens_false {l : List Char} (hl : ∀ c ∈ l, MoneyChar c) :
    containsTok l ['이', '하'] = false ∧ containsTok l ['미', '만'] = false ∧
    containsTok l ['이', '상'] = false ∧ containsTok l ['초', '과'] = false := by
  refine ⟨?_, ?_, ?_, ?_⟩ <;>
  · rw [Bool.eq_false_iff]
    intro h
    have hmem := containsTok_subset h _ (List.mem_cons_self _ _)
    rcases hl _ hmem with h1 | h1 | h1 | h1 <;> exact absurd h1 (by decide)

theorem filter_keep_money {l : List Char} (h : ∀ c ∈ l, MoneyChar c) :
    (l.filter fun c => !(c = ',' || c = ' ')) = l := by
  refine List.filter_eq_self.mpr (fun c hc => ?_)
  rcases h c hc with h1 | h1 | h1 | h1
  · exact moneyKeep_digit h1
  · subst h1; decide
  · subst h1; decide
  · subst h1; decide

theorem all_digit_false {l : List Char} {c : Char} (hc : c ∈ l) (hcd : c.isDigit = false) :
    l.all Char.isDigit = false := by
  rw [Bool.eq_false_iff]
  intro hall
  have := List.all_eq_true.mp hall c hc
  rw [hcd] at this
  cases this

theorem matchNumSuffix_append (suf p : List Char) (hp : p ≠ [])
    (hd : ∀ c ∈ p, c.isDigit = true) :
    matchNumSuffix suf (p ++ suf) = some (natOfDigits p) := by
  unfold matchNumSuffix
  have hl : (p ++ suf).length - suf.length = p.length := by
    rw [List.length_append]
    omega
  rw [hl, List.take_left, List.drop_left]
  rw [if_pos ⟨rfl, hp, List.all_eq_true.mpr hd⟩]

theorem matchNumSuffix_ne (suf t p : List Char) (hlen : t.length = suf.length)
    (hne : t ≠ suf) : matchNumSuffix suf (p ++ t) = none := by
  unfold matchNumSuffix
  have hl : (p ++ t).length - suf.length = p.length := by
    rw [List.length_append, ← hlen]
    omega
  rw [hl, List.take_left, List.drop_left]
  rw [if_neg (fun hcond => hne hcond.1)]

theorem matchNumSuffix_not_digits (suf p : List Char) {c : Char} (hc : c ∈ p)
    (hcd : c.isDigit = false) : matchNumSuffix suf (p ++ suf) = none := by
  unfold matchNumSuffix
  have hl : (p ++ suf).length - suf.length = p.length := by
    rw [List.length_append]
    omega
  rw [hl, List.take_left, List.drop_left]
  rw [if_neg]
  rintro ⟨-, -, hall⟩
  rw [all_digit_false hc hcd] at hall
  cases hall

theorem moneyChars_append {a suf : List Char} (hd : ∀ c ∈ a, c.isDigit = true)
    (hs : ∀ c ∈ suf, MoneyChar c) : ∀ c ∈ a ++ suf, MoneyChar c := by
  intro c hc
  rcases List.mem_append.mp hc with hc | hc
  · exact Or.inl (hd c hc)
  · exact hs c hc

theorem money_no_ws {l : List Char} (h : ∀ c ∈ l, MoneyChar c) :
    ∀ c ∈ l, isPyWs c = false := by
  intro c hc
  rcases h c hc with h1 | h1 | h1 | h1
  · exact not_ws_of_digit h1
  · subst h1; decide
  · subst h1; decide
  · subst h1; decide

theorem toMoney_man_won (a : List Char) (ha : a ≠ []) (hd : ∀ c ∈ a, c.isDigit = true) :
    toMoneyPy (some (String.mk (a ++ ['만', '원']))) 0 = (natOfDigits a : ℤ) * 10000 := by
  have hm : ∀ c ∈ a ++ ['만', '원'], MoneyChar c := moneyChars_append hd (by decide)
  unfold toMoneyPy
  dsimp only
  rw [pytrim_of_all (money_no_ws hm), filter_keep_money hm]
  have hf := money_tokens_false hm
  rw [hf.1, hf.2.1, hf.2.2.1, hf.2.2.2]
  simp only [Bool.or_self, Bool.false_eq_true, if_false]
  have hnd : ¬(a ++ ['만', '원'] ≠ [] ∧ (a ++ ['만', '원']).all Char.isDigit = true) := by
    rintro ⟨-, hall⟩
    rw [all_digit_false (l := a ++ ['만', '원']) (c := '만') (by simp) (by decide)] at hall
    cases hall
  rw [if_neg hnd, matchNumSuffix_append ['만', '원'] a ha hd]
  dsimp only
  push_cast
  ring

theorem toMoney_chun_won (a : List Char) (ha : a ≠ []) (hd : ∀ c ∈ a, c.isDigit = true) :
    toMoneyPy (some (String.mk (a ++ ['천', '원']))) 0 = (natOfDigits a : ℤ) * 1000 := by
  have hm : ∀ c ∈ a ++ ['천', '원'], MoneyChar c := moneyChars_append hd (by decide)
  unfold toMoneyPy
  dsimp only
  rw [pytrim_of_all (money_no_ws hm), filter_keep_money hm]
  have hf := money_tokens_false hm
  rw [hf.1, hf.2.1, hf.2.2.1, hf.2.2.2]
  simp only [Bool.or_self, Bool.false_eq_true, if_false]
  have hnd : ¬(a ++ ['천', '원'] ≠ [] ∧ (a ++ ['천', '원']).all Char.isDigit = true) := by
    rintro ⟨-, hall⟩
    rw [all_digit_false (l := a ++ ['천', '원']) (c := '천') (by simp) (by decide)] at hall
    cases hall
  have m1 : matchNumSuffix ['만', '원'] (a ++ ['천', '원']) = none :=
    matchNumSuffix_ne _ _ _ rfl (by decide)
  have m2 : matchNumSuffix ['만'] (a ++ ['천', '원']) = none := by
    rw [show a ++ ['천', '원'] = (a ++ ['천']) ++ ['원'] from by simp]
    exact matchNumSuffix_ne _ _ _ rfl (by decide)
  rw [if_neg hnd, m1, m2, matchNumSuffix_append ['천', '원'] a ha hd]
  dsimp only
  push_cast
  ring

theorem toMoney_won (a : List Char) (ha : a ≠ []) (hd : ∀ c ∈ a, c.isDigit = true) :
    toMoneyPy (some (String.mk (a ++ ['원']))) 0 = (natOfDigits a : ℤ) := by
  obtain ⟨a', d, rfl⟩ := (List.eq_nil_or_concat' a).resolve_left ha
  have hdd : d.isDigit = true := hd d (by simp)
  have hm : ∀ c ∈ (a' ++ [d]) ++ ['원'], MoneyChar c := moneyChars_append hd (by decide)
  unfold toMoneyPy
  dsimp only
  rw [pytrim_of_all (money_no_ws hm), filter_keep_money hm]
  have hf := money_tokens_false hm
  rw [hf.1, hf.2.1, hf.2.2.1, hf.2.2.2]
  simp only [Bool.or_self, Bool.false_eq_true, if_false]
  have hnd : ¬((a' ++ [d]) ++ ['원'] ≠ [] ∧ ((a' ++ [d]) ++ ['원']).all Char.isDigit = true) := by
    rintro ⟨-, hall⟩
    rw [all_digit_false (l := (a' ++ [d]) ++ ['원']) (c := '원') (by simp) (by decide)] at hall
    cases hall
  have m1 : matchNumSuffix ['만', '원'] ((a' ++ [d]) ++ ['원']) = none := by
    rw [show (a' ++ [d]) ++ ['원'] = a' ++ [d, '원'] from by simp]
    refine matchNumSuffix_ne _ _ _ rfl ?_
    intro h
    exact digit_ne hdd (by decide) ((List.cons.injEq _ _ _ _).mp h).1
  have m2 : matchNumSuffix ['만'] ((a' ++ [d]) ++ ['원']) = none :=
    matchNumSuffix_ne _ _ _ rfl (by decide)
  have m3 : matchNumSuffix ['천', '원'] ((a' ++ [d]) ++ ['원']) = none := by
    rw [show (a' ++ [d]) ++ ['원'] = a' ++ [d, '원'] from by simp]
    refine matchNumSuffix_ne _ _ _ rfl ?_
    intro h
    exact digit_ne hdd (by decide) ((List.cons.injEq _ _ _ _).mp h).1
  have m4 : matchNumSuffix ['천'] ((a' ++ [d]) ++ ['원']) = none :=
    matchNumSuffix_ne _ _ _ rfl (by decide)
  rw [if_neg hnd, m1, m2, m3, m4, matchNumSuffix_append ['원'] (a' ++ [d]) ha hd]

theorem toMoney_digits (a : List Char) (ha : a ≠ []) (hd : ∀ c ∈ a, c.isDigit = true) :
    toMoneyPy (some (String.mk a)) 0 = (natOfDigits a : ℤ) := by
  have hm : ∀ c ∈ a, MoneyChar c := fun c hc => Or.inl (hd c hc)
  unfold toMoneyPy
  dsimp only
  rw [pytrim_of_all (money_no_ws hm), filter_keep_money hm]
  have hf := money_tokens_false hm
  rw [hf.1, hf.2.1, hf.2.2.1, hf.2.2.2]
  simp only [Bool.or_self, Bool.false_eq_true, if_false]
  rw [if_pos ⟨ha, List.all_eq_true.mpr hd⟩]

theorem filter_digits_self {l : List Char} (h : ∀ c ∈ l, c.isDigit = true) :
    l.filter Char.isDigit = l := List.filter_eq_self.mpr h

theorem toMoney_mixed (a b : List Char) (ha : a ≠ []) (hda : ∀ c ∈ a, c.isDigit = true)
    (hdb : ∀ c ∈ b, c.isDigit = true) :
    toMoneyPy (some (String.mk (a ++ ['만', ' '] ++ b ++ ['천', '원']))) 0 =
      (natOfDigits (a ++ b) : ℤ) := by
  obtain ⟨c0, a0, rfl⟩ := List.exists_cons_of_ne_nil ha
  have hc0 : c0.isDigit = true := hda c0 (List.mem_cons_self _ _)
  unfold toMoneyPy
  dsimp only
  have hpt : pytrim ((((c0 :: a0) ++ ['만', ' ']) ++ b) ++ ['천', '원']) =
      (((c0 :: a0) ++ ['만', ' ']) ++ b) ++ ['천', '원'] := by
    refine pytrim_of_ends ?_ ?_
    · intro c hc
      have hh : ((((c0 :: a0) ++ ['만', ' ']) ++ b) ++ ['천', '원']).head? = some c0 := by
        simp
      rw [hh] at hc
      have hcc : c = c0 := (Option.some.injEq _ _).mp hc.symm
      rw [hcc]
      exact not_ws_of_digit hc0
    · intro c hc
      have hg : ((((c0 :: a0) ++ ['만', ' ']) ++ b) ++ ['천', '원']).getLast? = some '원' := by
        rw [show (((c0 :: a0) ++ ['만', ' ']) ++ b) ++ ['천', '원'] =
          ((((c0 :: a0) ++ ['만', ' ']) ++ b) ++ ['천']) ++ ['원'] from by simp]
        exact List.getLast?_concat _
      rw [hg] at hc
      have hcc : c = '원' := (Option.some.injEq _ _).mp hc.symm
      rw [hcc]
      decide
  rw [hpt]
  have e1 : List.filter (fun c => !(c = ',' || c = ' ')) ['만', ' '] = ['만'] := rfl
  have e2 : List.filter (fun c => !(c = ',' || c = ' ')) ['천', '원'] = ['천', '원'] := rfl
  have hfil : List.filter (fun c => !(c = ',' || c = ' '))
      ((((c0 :: a0) ++ ['만', ' ']) ++ b) ++ ['천', '원']) =
      (((c0 :: a0) ++ ['만']) ++ b) ++ ['천', '원'] := by
    simp only [List.filter_append, e1, e2,
      filter_keep_money (fun c hc => Or.inl (hda c hc)),
      filter_keep_money (fun c hc => Or.inl (hdb c hc))]
  rw [hfil]
  have hm : ∀ c ∈ (((c0 :: a0) ++ ['만']) ++ b) ++ ['천', '원'], MoneyChar c := by
    intro c hc
    rcases List.mem_append.mp hc with hc | hc
    · rcases List.mem_append.mp hc with hc | hc
      · rcases List.mem_append.mp hc with hc | hc
        · exact Or.inl (hda c hc)
        · have : c = '만' := by simpa using hc
          subst this
          exact Or.inr (Or.inl rfl)
      · exact Or.inl (hdb c hc)
    · rcases List.mem_cons.mp hc with rfl | hc
      · exact Or.inr (Or.inr (Or.inl rfl))
      · have : c = '원' := by simpa using hc
        subst this
        exact Or.inr (Or.inr (Or.inr rfl))
  have hf := money_tokens_false hm
  rw [hf.1, hf.2.1, hf.2.2.1, hf.2.2.2]
  simp only [Bool.or_self, Bool.false_eq_true, if_false]
  have hnd : ¬((((c0 :: a0) ++ ['만']) ++ b) ++ ['천', '원'] ≠ [] ∧
      ((((c0 :: a0) ++ ['만']) ++ b) ++ ['천', '원']).all Char.isDigit = true) := by
    rintro ⟨-, hall⟩
    rw [all_digit_false (l := (((c0 :: a0) ++ ['만']) ++ b) ++ ['천', '원']) (c := '만')
      (by simp) (by decide)] at hall
    cases hall
  have m1 : matchNumSuffix ['만', '원'] ((((c0 :: a0) ++ ['만']) ++ b) ++ ['천', '원']) = none :=
    matchNumSuffix_ne _ _ _ rfl (by decide)
  have m2 : matchNumSuffix ['만'] ((((c0 :: a0) ++ ['만']) ++ b) ++ ['천', '원']) = none := by
    rw [show (((c0 :: a0) ++ ['만']) ++ b) ++ ['천', '원'] =
      ((((c0 :: a0) ++ ['만']) ++ b) ++ ['천']) ++ ['원'] from by simp]
    exact matchNumSuffix_ne _ _ _ rfl (by decide)
  have m3 : matchNumSuffix ['천', '원'] ((((c0 :: a0) ++ ['만']) ++ b) ++ ['천', '원']) = none :=
    matchNumSuffix_not_digits _ _ (c := '만') (by simp) (by decide)
  have m4 : matchNumSuffix ['천'] ((((c0 :: a0) ++ ['만']) ++ b) ++ ['천', '원']) = none := by
    rw [show (((c0 :: a0) ++ ['만']) ++ b) ++ ['천', '원'] =
      ((((c0 :: a0) ++ ['만']) ++ b) ++ ['천']) ++ ['원'] from by simp]
    exact matchNumSuffix_ne _ _ _ rfl (by decide)
  have m5 : matchNumSuffix ['원'] ((((c0 :: a0) ++ ['만']) ++ b) ++ ['천', '원']) = none := by
    rw [show (((c0 :: a0) ++ ['만']) ++ b) ++ ['천', '원'] =
      ((((c0 :: a0) ++ ['만']) ++ b) ++ ['천']) ++ ['원'] from by simp]
    exact matchNumSuffix_not_digits _ _ (c := '만') (by simp) (by decide)
  have e3 : List.filter Char.isDigit ['만'] = [] := rfl
  have e4 : List.filter Char.isDigit ['천', '원'] = [] := rfl
  have hds : List.filter Char.isDigit ((((c0 :: a0) ++ ['만']) ++ b) ++ ['천', '원']) =
      (c0 :: a0) ++ b := by
    simp only [List.filter_append, e3, e4, filter_digits_self hda, filter_digits_self hdb,
      List.append_nil]
  rw [if_neg hnd, m1, m2, m3, m4, m5, hds]
  rw [if_pos (by simp)]

/-- C10: the money normalizer parses only single-suffix magnitude forms —
a digit string `N` followed by 만원 scales by 10000, by 천원 scales by
1000, by 원 (or nothing) parses as-is — while a combined 만+천 form such
as `7만 5천원` matches none of the suffix patterns and falls through to
the digits-only fallback, returning the concatenated digits (75, not
75000). -/
theorem C10_money_normalizer (a b : List Char) (ha : a ≠ []) (hda : ∀ c ∈ a, c.isDigit = true)
    (hb : b ≠ []) (hdb : ∀ c ∈ b, c.isDigit = true) :
    toMoneyPy (some (String.mk (a ++ ['만', '원']))) 0 = (natOfDigits a : ℤ) * 10000 ∧
    toMoneyPy (some (String.mk (a ++ ['천', '원']))) 0 = (natOfDigits a : ℤ) * 1000 ∧
    toMoneyPy (some (String.mk (a ++ ['원']))) 0 = (natOfDigits a : ℤ) ∧
    toMoneyPy (some (String.mk a)) 0 = (natOfDigits a : ℤ) ∧
    toMoneyPy (some (String.mk (a ++ ['만', ' '] ++ b ++ ['천', '원']))) 0 =
      (natOfDigits (a ++ b) : ℤ) :=
  ⟨toMoney_man_won a ha hda, toMoney_chun_won a ha hda, toMoney_won a ha hda,
   toMoney_digits a ha hda, toMoney_mixed a b ha hda hdb⟩

theorem C10_money_normalizer_witness :
    toMoneyPy (some (String.mk (['7'] ++ ['만', '원']))) 0 = (natOfDigits ['7'] : ℤ) * 10000 ∧
    toMoneyPy (some (String.mk (['7'] ++ ['천', '원']))) 0 = (natOfDigits ['7'] : ℤ) * 1000 ∧
    toMoneyPy (some (String.mk (['7'] ++ ['원']))) 0 = (natOfDigits ['7'] : ℤ) ∧
    toMoneyPy (some (String.mk ['7'])) 0 = (natOfDigits ['7'] : ℤ) ∧
    toMoneyPy (some (String.mk (['7'] ++ ['만', ' '] ++ ['5'] ++ ['천', '원']))) 0 =
      (natOfDigits (['7'] ++ ['5']) : ℤ) :=
  C10_money_normalizer ['7'] ['5'] (by decide) (by decide) (by decide) (by decide)
